import Mathlib

/-!
Shallow embedding of the incremental conversation graph engine
(`MindmapService` in the repository) and proofs about its merge,
summarization, update-cycle, persistence and formatting operations.

Impure ingredients of the JavaScript code are passed as parameters:
`now` stands for `Date.now()` (or the epoch-seconds clock where noted),
`rand k` for the suffix produced by the k-th `Math.random()` call,
`render ms` for `new Date(ms).toLocaleTimeString()`, and `stringify`
for `JSON.stringify`.  JavaScript objects whose keys may be absent are
embedded with `Option` fields, and the `x || d` defaulting idiom is
embedded by `jsOrStr`/`jsOrInt` (empty string and `0` are falsy).
-/

namespace Glass

/-- Metadata carried by a node (`node.metadata` in the source); every key may
be absent in the JavaScript object. -/
structure NodeMeta where
  firstMentioned : Option Int := none
  speaker : Option String := none
  transcriptIndices : Option (List Int) := none
  summarizedNodes : Option (List (Option String)) := none
deriving DecidableEq

/-- A mindmap node.  All fields optional, mirroring the defensive reads of the
source (`node.level || 1`, `newNode.id || ...`, `node.metadata?...`). -/
structure Node where
  id : Option String := none
  label : Option String := none
  type : Option String := none
  level : Option Int := none
  color : Option String := none
  size : Option Int := none
  metadata : Option NodeMeta := none
  expandable : Option Bool := none
deriving DecidableEq

/-- A mindmap edge.  `fromId`/`toId` embed the source fields `from`/`to`
(`from` is a Lean keyword). -/
structure Edge where
  id : Option String := none
  fromId : String
  toId : String
  type : Option String := none
  color : Option String := none
deriving DecidableEq

/-- `graph.metadata` of the source. -/
structure GraphMeta where
  sessionId : Option String := none
  lastUpdated : Option Int := none
  version : Option Int := none
  totalTranscripts : Option Int := none
  error : Option String := none
deriving DecidableEq

/-- A mindmap graph snapshot. -/
structure Graph where
  nodes : List Node
  edges : List Edge
  metadata : GraphMeta
deriving DecidableEq

/-- A `{nodes, edges}` delta payload passed to `mergeMindmapUpdates`. -/
structure Delta where
  nodes : List Node
  edges : List Edge
deriving DecidableEq

/-- JavaScript `s || d` for an optional string: absent, `null` and the empty
string are falsy. -/
def jsOrStr (o : Option String) (d : String) : String :=
  match o with
  | some s => if s = "" then d else s
  | none => d

/-- JavaScript `v || d` for an optional number: absent, `null` and `0` are
falsy. -/
def jsOrInt (o : Option Int) (d : Int) : Int :=
  match o with
  | some v => if v = 0 then d else v
  | none => d

/-- Whether `needle` is a prefix of the character list (first argument is the
list being searched, second the pattern), used to embed `String.includes`. -/
def startsWithList : List Char → List Char → Bool
  | _, [] => true
  | [], _ :: _ => false
  | h :: hs, n :: ns => h == n && startsWithList hs ns

/-- JavaScript `hay.includes(needle)` on character lists. -/
def hasSubList (needle : List Char) : List Char → Bool
  | [] => startsWithList [] needle
  | c :: t => startsWithList (c :: t) needle || hasSubList needle t

/-- Whitespace test used for `trim()` and `split(/\s+/)`. -/
def isWsChar (c : Char) : Bool := c.isWhitespace

/-- JavaScript `String.prototype.trim` on character lists. -/
def trimChars (cs : List Char) : List Char :=
  ((cs.dropWhile isWsChar).reverse.dropWhile isWsChar).reverse

/-- `label.toLowerCase().trim()` as a character list. -/
def normalizeChars (s : String) : List Char :=
  trimChars (s.toList.map Char.toLower)

/-- Chunks of a character list between whitespace characters, empty chunks
included (the splitting behaviour of a regexp separator). -/
def splitOnWs : List Char → List Char → List (List Char)
  | acc, [] => [acc.reverse]
  | acc, c :: t => if isWsChar c then acc.reverse :: splitOnWs [] t else splitOnWs (c :: acc) t

/-- JavaScript `s.split(/\s+/)` on a trimmed character list: the empty string
yields `[""]`, otherwise the non-empty whitespace-separated chunks. -/
def splitWsList (cs : List Char) : List (List Char) :=
  if cs = [] then [[]] else (splitOnWs [] cs).filter (fun w => w ≠ [])

/-- `nodesSimilar(label1, label2)` from the source: false on missing or empty
labels; then, on the lower-cased trimmed labels: exact match, substring
containment either way, or whitespace-token overlap strictly above one half of
the larger token count.  The overlap count `commonWords.length` counts tokens
of the FIRST label that occur in the second, multiplicities included. -/
def nodesSimilar (label1 label2 : Option String) : Bool :=
  match label1, label2 with
  | some l1, some l2 =>
    if l1 = "" ∨ l2 = "" then false
    else
      let n1 := normalizeChars l1
      let n2 := normalizeChars l2
      if n1 = n2 then true
      else if hasSubList n2 n1 || hasSubList n1 n2 then true
      else
        let words1 := splitWsList n1
        let words2 := splitWsList n2
        let commonWords := words1.filter (fun w => decide (w ∈ words2))
        decide (2 * commonWords.length > max words1.length words2.length)
  | _, _ => false

/-- Fresh node id `node-${Date.now()}-${random}`. -/
def freshNodeId (now : Int) (rand : Nat → String) (k : Nat) : String :=
  "node-" ++ toString now ++ "-" ++ rand k

/-- Fresh edge id `edge-${Date.now()}-${random}`. -/
def freshEdgeId (now : Int) (rand : Nat → String) (k : Nat) : String :=
  "edge-" ++ toString now ++ "-" ++ rand k

/-- The in-place update applied to the first similar node: append the incoming
`transcriptIndices` to the existing ones (`existingNode.metadata` is created if
absent); identity and visual attributes untouched. -/
def unionTranscriptIndices (n : Node) (idxs : List Int) : Node :=
  let m := n.metadata.getD {}
  { n with metadata := some { m with transcriptIndices := some (m.transcriptIndices.getD [] ++ idxs) } }

/-- Replace the first node of the list whose label is similar to `lbl` by its
transcript-index union; embeds the mutation of the node found by `find`. -/
def updateFirstSimilar (lbl : Option String) (idxs : List Int) : List Node → List Node
  | [] => []
  | n :: rest =>
    if nodesSimilar n.label lbl then unionTranscriptIndices n idxs :: rest
    else n :: updateFirstSimilar lbl idxs rest

/-- One iteration of the node loop of `mergeMindmapUpdates`: if some node of
`acc` is similar, update that (first such) node with the incoming transcript
indices when present; otherwise append the incoming node, generating an id if
absent. -/
def mergeNodeStep (now : Int) (rand : Nat → String) (k : Nat) (acc : List Node) (newNode : Node) : List Node :=
  if acc.any (fun n => nodesSimilar n.label newNode.label) then
    match newNode.metadata.bind NodeMeta.transcriptIndices with
    | some idxs => updateFirstSimilar newNode.label idxs acc
    | none => acc
  else
    acc ++ [{ newNode with id := some (jsOrStr newNode.id (freshNodeId now rand k)) }]

/-- The node loop of `mergeMindmapUpdates`. -/
def mergeNodesLoop (now : Int) (rand : Nat → String) : Nat → List Node → List Node → List Node
  | _, acc, [] => acc
  | k, acc, n :: rest => mergeNodesLoop now rand (k + 1) (mergeNodeStep now rand k acc n) rest

/-- One iteration of the edge loop of `mergeMindmapUpdates`: append unless an
edge with the identical `(from, to)` pair exists. -/
def mergeEdgeStep (now : Int) (rand : Nat → String) (k : Nat) (acc : List Edge) (newEdge : Edge) : List Edge :=
  if acc.any (fun e => decide (e.fromId = newEdge.fromId ∧ e.toId = newEdge.toId)) then acc
  else acc ++ [{ newEdge with id := some (jsOrStr newEdge.id (freshEdgeId now rand k)) }]

/-- The edge loop of `mergeMindmapUpdates`. -/
def mergeEdgesLoop (now : Int) (rand : Nat → String) : Nat → List Edge → List Edge → List Edge
  | _, acc, [] => acc
  | k, acc, e :: rest => mergeEdgesLoop now rand (k + 1) (mergeEdgeStep now rand k acc e) rest

/-- `mergeMindmapUpdates(existingMindmap, updates)` from the source: merge the
delta into the existing graph, bump the version and stamp `lastUpdated`. -/
def mergeMindmapUpdates (now : Int) (rand : Nat → String) (existingMindmap : Graph) (updates : Delta) : Graph :=
  { nodes := mergeNodesLoop now rand 0 existingMindmap.nodes updates.nodes
    edges := mergeEdgesLoop now rand 0 existingMindmap.edges updates.edges
    metadata := { existingMindmap.metadata with
                  version := some (jsOrInt existingMindmap.metadata.version 0 + 1)
                  lastUpdated := some now } }

/-- `a.metadata?.firstMentioned || 0`. -/
def fmOf (n : Node) : Int := jsOrInt (n.metadata.bind NodeMeta.firstMentioned) 0

/-- The stable ascending sort by `firstMentioned` of `summarizeOlderNodes`. -/
def sortByFirstMentioned (l : List Node) : List Node :=
  l.mergeSort (fun a b => decide (fmOf a ≤ fmOf b))

/-- `node.level || 1`. -/
def jsLevel (n : Node) : Int := jsOrInt n.level 1

/-- The `byLevel[level]` group of `createSummaryNodes`. -/
def groupAtLevel (olderNodes : List Node) (lv : Int) : List Node :=
  olderNodes.filter (fun n => decide (jsLevel n = lv))

/-- The keys of the `byLevel` object, i.e. the distinct levels of the older
nodes; JavaScript enumerates integer-like keys in ascending numeric order. -/
def levelKeys (olderNodes : List Node) : List Int :=
  ((olderNodes.map jsLevel).dedup).mergeSort (fun a b => decide (a ≤ b))

/-- `Math.min(...nodes.map(n => n.metadata?.firstMentioned || 0))`. -/
def minFirstMentioned (nodes : List Node) : Int :=
  match nodes.map fmOf with
  | [] => 0
  | x :: xs => xs.foldl min x

/-- The synthetic summary node built for one level group. -/
def mkSummaryNode (now : Int) (olderNodes : List Node) (lv : Int) : Node :=
  let nodes := groupAtLevel olderNodes lv
  { id := some ("summary-" ++ toString lv ++ "-" ++ toString now)
    label := some (toString nodes.length ++ " " ++ jsOrStr (nodes.head?.bind Node.type) "items")
    type := some "summary"
    level := some lv
    color := some "#9B9B9B"
    size := some 15
    metadata := some { firstMentioned := some (minFirstMentioned nodes)
                       speaker := none
                       transcriptIndices := none
                       summarizedNodes := some (nodes.map Node.id) }
    expandable := some true }

/-- `createSummaryNodes(olderNodes)`: one summary node per non-empty level
group. -/
def createSummaryNodes (now : Int) (olderNodes : List Node) : List Node :=
  (levelKeys olderNodes).filterMap (fun lv =>
    if groupAtLevel olderNodes lv = [] then none
    else some (mkSummaryNode now olderNodes lv))

/-- `s.metadata?.summarizedNodes?.includes(x)`. -/
def summarizedIncl (s : Node) (x : String) : Bool :=
  match s.metadata.bind NodeMeta.summarizedNodes with
  | some ids => decide (some x ∈ ids)
  | none => false

/-- `oldNodeIds.has(x)` where `oldNodeIds` is the set of older node ids. -/
def isOldId (olderNodes : List Node) (x : String) : Bool :=
  olderNodes.any (fun n => decide (n.id = some x))

/-- The per-edge rewrite of `updateEdgesForSummaries`; `none` means the edge
is dropped. -/
def edgeRewrite (olderNodes summaryNodes : List Node) (e : Edge) : Option Edge :=
  if isOldId olderNodes e.fromId && isOldId olderNodes e.toId then none
  else if isOldId olderNodes e.fromId then
    match summaryNodes.find? (fun s => summarizedIncl s e.fromId) with
    | some s => some { e with fromId := s.id.getD "" }
    | none => none
  else if isOldId olderNodes e.toId then
    match summaryNodes.find? (fun s => summarizedIncl s e.toId) with
    | some s => some { e with toId := s.id.getD "" }
    | none => none
  else some e

/-- `updateEdgesForSummaries(edges, oldNodes, summaryNodes)` from the source. -/
def updateEdgesForSummaries (edges : List Edge) (oldNodes summaryNodes : List Node) : List Edge :=
  edges.filterMap (edgeRewrite oldNodes summaryNodes)

/-- `olderNodes` of `summarizeOlderNodes`: all but the most recent `maxNodes`
sorted nodes (`sortedNodes.slice(0, sortedNodes.length - maxNodes)`). -/
def olderNodesOf (l : List Node) (maxNodes : Nat) : List Node :=
  (sortByFirstMentioned l).take ((sortByFirstMentioned l).length - maxNodes)

/-- `recentNodes` of `summarizeOlderNodes`: the most recent `maxNodes` sorted
nodes (`sortedNodes.slice(-maxNodes)`). -/
def recentNodesOf (l : List Node) (maxNodes : Nat) : List Node :=
  (sortByFirstMentioned l).drop ((sortByFirstMentioned l).length - maxNodes)

/-- `summarizeOlderNodes(mindmap, maxNodes)` from the source; `now` stands for
the `Date.now()` used in summary-node ids. -/
def summarizeOlderNodes (now : Int) (mindmap : Graph) (maxNodes : Nat) : Graph :=
  if mindmap.nodes.length ≤ maxNodes then mindmap
  else
    { nodes := recentNodesOf mindmap.nodes maxNodes
        ++ createSummaryNodes now (olderNodesOf mindmap.nodes maxNodes)
      edges := updateEdgesForSummaries mindmap.edges (olderNodesOf mindmap.nodes maxNodes)
        (createSummaryNodes now (olderNodesOf mindmap.nodes maxNodes))
      metadata := mindmap.metadata }

/-- The success path of `updateMindmap`: build a fresh graph from the validated
generation result (replace, do not merge), then bound its size at 200 nodes. -/
def updateMindmapSuccess (sessionId : Option String) (now : Int) (totalTranscripts : Int)
    (current : Graph) (genNodes : List Node) (genEdges : List Edge) : Graph :=
  let newMindmap : Graph :=
    { nodes := genNodes
      edges := genEdges
      metadata := { sessionId := sessionId
                    lastUpdated := some now
                    version := some (jsOrInt current.metadata.version 0 + 1)
                    totalTranscripts := some totalTranscripts
                    error := none } }
  summarizeOlderNodes now newMindmap 200

/-- The catch handler of `updateMindmap`: keep the current mindmap when it has
at least one node, otherwise replace it by an empty graph carrying the error
message, with version and transcript count reset to 0. -/
def updateMindmapFailure (sessionId : Option String) (now : Int) (errMsg : String)
    (current : Graph) : Graph :=
  if current.nodes.length > 0 then current
  else
    { nodes := []
      edges := []
      metadata := { sessionId := sessionId
                    lastUpdated := some now
                    version := some 0
                    totalTranscripts := some 0
                    error := some errMsg } }

/-- The data one successful update cycle consumes: session id, clock, total
transcript count, and the validated generation result. -/
structure CycleInput where
  sessionId : Option String
  now : Int
  totalTranscripts : Int
  genNodes : List Node
  genEdges : List Edge

/-- N successful update cycles applied in order. -/
def applyCycles (inputs : List CycleInput) (g : Graph) : Graph :=
  inputs.foldl
    (fun acc c => updateMindmapSuccess c.sessionId c.now c.totalTranscripts acc c.genNodes c.genEdges) g

/-- The stored per-session summary record as returned by
`getSummaryBySessionId`; every field may be absent. -/
structure SummaryRecord where
  text : Option String := none
  tldr : Option String := none
  bullet_json : Option String := none
  action_json : Option String := none
  model : Option String := none
  generated_at : Option Int := none
deriving DecidableEq

/-- The argument object `saveMindmap` passes to `saveSummary`. -/
structure SummarySave where
  sessionId : String
  mindmap_json : String
  text : String
  tldr : String
  bullet_json : String
  action_json : String
  model : String
  generated_at : Int
  updated_at : Int
deriving DecidableEq

/-- `saveMindmap(mindmap)` from the source: read-modify-write against an
optional existing record; `stringify` stands for `JSON.stringify` and `now`
for `Math.floor(Date.now() / 1000)`. -/
def saveMindmap (stringify : Graph → String) (now : Int) (sessionId : String)
    (mindmap : Graph) (existingSummary : Option SummaryRecord) : SummarySave :=
  match existingSummary with
  | some r =>
    { sessionId := sessionId
      mindmap_json := stringify mindmap
      text := jsOrStr r.text ""
      tldr := jsOrStr r.tldr ""
      bullet_json := jsOrStr r.bullet_json ""
      action_json := jsOrStr r.action_json ""
      model := jsOrStr r.model "unknown"
      generated_at := jsOrInt r.generated_at now
      updated_at := now }
  | none =>
    { sessionId := sessionId
      mindmap_json := stringify mindmap
      text := ""
      tldr := ""
      bullet_json := ""
      action_json := ""
      model := "unknown"
      generated_at := now
      updated_at := now }

/-- A transcript row as read from the transcript store. -/
structure TranscriptTurn where
  speaker : Option String := none
  text : Option String := none
  start_at : Option Int := none
deriving DecidableEq

/-- `new Date(ms)` holds a valid time iff `|ms| ≤ 8.64e15`. -/
def validDateMs (ms : Int) : Bool := ms.natAbs ≤ 8640000000000000

/-- One line of the transcript-formatting loop of
`generateMindmapFromTranscripts`: try `start_at` as epoch-seconds, then as
epoch-milliseconds; when `start_at` is absent, zero (falsy) or invalid both
ways, the bracketed timestamp slot is filled with the index form `[index]`. -/
def formatTurn (render : Int → String) (index : Nat) (t : TranscriptTurn) : String :=
  let timestamp :=
    match t.start_at with
    | some s =>
      if s ≠ 0 then
        if validDateMs (s * 1000) then render (s * 1000)
        else if validDateMs s then render s
        else "[" ++ toString index ++ "]"
      else "[" ++ toString index ++ "]"
    | none => "[" ++ toString index ++ "]"
  "[" ++ timestamp ++ "] " ++ jsOrStr t.speaker "unknown" ++ ": " ++ jsOrStr t.text ""

/-- Success of the greedy regexp match on `{[\s\S]*}`: some opening brace is
followed, anywhere later, by a closing brace; equivalently the suffix starting
at the first opening brace contains a later closing brace
(`greedyBraceMatch_iff` below connects the two readings). -/
def greedyBraceMatch (cs : List Char) : Bool :=
  match cs.dropWhile (fun c => c ≠ '{') with
  | [] => false
  | _ :: rest => decide ('}' ∈ rest)

/-- The brace-counting loop of the fallback extraction, starting at the first
opening brace with `braceCount = 0`: stops successfully when the count returns
to zero. -/
def braceScanFrom : List Char → Int → Bool
  | [], _ => false
  | c :: rest, count =>
    let count1 := if c = '{' then count + 1 else if c = '}' then count - 1 else count
    if count1 = 0 then true else braceScanFrom rest count1

/-- Success of the scan-from-first-brace fallback of the JSON extraction. -/
def fallbackBraceMatch (cs : List Char) : Bool :=
  match cs.dropWhile (fun c => c ≠ '{') with
  | [] => false
  | c :: rest => braceScanFrom (c :: rest) 0

/-- Success of the two-stage extraction: greedy regexp first, brace-counting
fallback second. -/
def twoStageExtractSucceeds (cs : List Char) : Bool :=
  greedyBraceMatch cs || fallbackBraceMatch cs

/-- A node id is present in a node list. -/
def hasNodeId (nodes : List Node) (x : String) : Prop := ∃ n ∈ nodes, n.id = some x

instance (nodes : List Node) (x : String) : Decidable (hasNodeId nodes x) :=
  inferInstanceAs (Decidable (∃ n ∈ nodes, n.id = some x))

/-- The no-dangling-edges invariant: every edge endpoint references a node id
present in the same graph snapshot. -/
def NoDangling (g : Graph) : Prop :=
  ∀ e ∈ g.edges, hasNodeId g.nodes e.fromId ∧ hasNodeId g.nodes e.toId

instance (g : Graph) : Decidable (NoDangling g) :=
  inferInstanceAs (Decidable (∀ e ∈ g.edges, _ ∧ _))

/-- Unique node ids within a graph. -/
def UniqueIds (g : Graph) : Prop := (g.nodes.map Node.id).Nodup

instance (g : Graph) : Decidable (UniqueIds g) :=
  inferInstanceAs (Decidable ((g.nodes.map Node.id).Nodup))

/-- The whitespace tokens of a lower-cased trimmed label, as used by the
overlap branch of `nodesSimilar`. -/
def labelTokens (s : String) : List (List Char) := splitWsList (normalizeChars s)

/-- Modelled from the spec wording of the merge algorithm, for one incoming
node: walk the existing list for the first node satisfying `similar`; if
found, union the transcript indices into it and keep it in place; if no node
is similar, append the incoming node, generating an id if absent. -/
def specInsertNode (now : Int) (rand : Nat → String) (k : Nat) : List Node → Node → List Node
  | [], n => [{ n with id := some (jsOrStr n.id (freshNodeId now rand k)) }]
  | e :: rest, n =>
    if nodesSimilar e.label n.label then
      (match n.metadata.bind NodeMeta.transcriptIndices with
       | some idxs => unionTranscriptIndices e idxs
       | none => e) :: rest
    else e :: specInsertNode now rand k rest n

/-- Modelled from the spec wording, for one incoming edge: append only if no
existing edge already has the identical `(from, to)` pair. -/
def specInsertEdge (now : Int) (rand : Nat → String) (k : Nat) (acc : List Edge) (e : Edge) : List Edge :=
  if decide (∃ e0 ∈ acc, e0.fromId = e.fromId ∧ e0.toId = e.toId) then acc
  else acc ++ [{ e with id := some (jsOrStr e.id (freshEdgeId now rand k)) }]

/-- The spec-side node loop. -/
def mergeSpecNodesLoop (now : Int) (rand : Nat → String) : Nat → List Node → List Node → List Node
  | _, acc, [] => acc
  | k, acc, n :: rest => mergeSpecNodesLoop now rand (k + 1) (specInsertNode now rand k acc n) rest

/-- The spec-side edge loop. -/
def mergeSpecEdgesLoop (now : Int) (rand : Nat → String) : Nat → List Edge → List Edge → List Edge
  | _, acc, [] => acc
  | k, acc, e :: rest => mergeSpecEdgesLoop now rand (k + 1) (specInsertEdge now rand k acc e) rest

/-- The merge operation as described by the spec (§4.3), to be compared with
the source-side `mergeMindmapUpdates`. -/
def mergeMindmapSpec (now : Int) (rand : Nat → String) (existingMindmap : Graph) (updates : Delta) : Graph :=
  { nodes := mergeSpecNodesLoop now rand 0 existingMindmap.nodes updates.nodes
    edges := mergeSpecEdgesLoop now rand 0 existingMindmap.edges updates.edges
    metadata := { existingMindmap.metadata with
                  version := some (jsOrInt existingMindmap.metadata.version 0 + 1)
                  lastUpdated := some now } }

/-- Fixture: an existing graph holding one node labelled `Budget`. -/
def gBudget : Graph :=
  { nodes := [{ id := some "n1", label := some "Budget", type := some "topic", level := some 1,
                metadata := some { firstMentioned := some 5, transcriptIndices := some [1] } }]
    edges := []
    metadata := { sessionId := some "s1", lastUpdated := some 10, version := some 1, totalTranscripts := some 1 } }

/-- Fixture: a delta holding one node labelled `Q4 Budget`. -/
def dQ4Budget : Delta :=
  { nodes := [{ id := some "n2", label := some "Q4 Budget", type := some "topic", level := some 1,
                metadata := some { firstMentioned := some 7, transcriptIndices := some [2] } }]
    edges := [] }

/-- Fixture: the `Q4 Budget` delta together with an edge referencing the delta
node's own id `n2`. -/
def dQ4BudgetWithEdge : Delta :=
  { nodes := dQ4Budget.nodes
    edges := [{ id := some "e1", fromId := "n2", toId := "n1", type := some "hierarchical" }] }

/-- Fixture: a graph with no nodes but a positive version, as produced by a
successful cycle whose generation result had zero nodes. -/
def gEmptyV1 : Graph :=
  { nodes := []
    edges := []
    metadata := { sessionId := some "s1", lastUpdated := some 20, version := some 1, totalTranscripts := some 3 } }

/-- Fixture: a well-formed one-node graph. -/
def gOneNode : Graph :=
  { nodes := [{ id := some "a", label := some "Alpha", level := some 1,
                metadata := some { firstMentioned := some 1 } }]
    edges := []
    metadata := { sessionId := some "s2", lastUpdated := some 30, version := some 2, totalTranscripts := some 4 } }

/-- Fixture: a fully populated stored summary record. -/
def rFull : SummaryRecord :=
  { text := some "Existing summary", tldr := some "T", bullet_json := some "[]",
    action_json := some "[]", model := some "gpt-4", generated_at := some 1234567890 }

/-- Fixture: a stored summary record whose `model` field is the empty string
and whose `generated_at` is zero (both JavaScript-falsy). -/
def rFalsyFields : SummaryRecord :=
  { text := some "keep me", tldr := some "t", bullet_json := some "b",
    action_json := some "a", model := some "", generated_at := some 0 }

/-- Fixture: a turn with an epoch-seconds timestamp. -/
def tSec : TranscriptTurn := { speaker := some "them", text := some "hi", start_at := some 1000 }

/-- Fixture: a turn with no timestamp. -/
def tMissing : TranscriptTurn := { speaker := some "them", text := some "hi" }

/-- Fixture: a turn whose timestamp is the (parsable but falsy) epoch 0. -/
def tZero : TranscriptTurn := { speaker := some "them", text := some "hi", start_at := some 0 }

theorem summarizeOlderNodes_metadata (now : Int) (g : Graph) (k : Nat) :
    (summarizeOlderNodes now g k).metadata = g.metadata := by
  unfold summarizeOlderNodes
  split <;> rfl

theorem jsOrInt_some_add_one (z : Int) : jsOrInt (some (z + 1)) 0 = z + 1 := by
  show (if z + 1 = 0 then (0 : Int) else z + 1) = z + 1
  split <;> omega

theorem updateMindmapSuccess_version (sid : Option String) (now tot : Int)
    (g : Graph) (ns : List Node) (es : List Edge) :
    (updateMindmapSuccess sid now tot g ns es).metadata.version
      = some (jsOrInt g.metadata.version 0 + 1) := by
  unfold updateMindmapSuccess
  rw [summarizeOlderNodes_metadata]

theorem applyCycles_version (inputs : List CycleInput) :
    ∀ g : Graph, jsOrInt (applyCycles inputs g).metadata.version 0
      = jsOrInt g.metadata.version 0 + inputs.length := by
  induction inputs with
  | nil => intro g; simp [applyCycles]
  | cons c cs ih =>
    intro g
    have h1 : applyCycles (c :: cs) g
        = applyCycles cs (updateMindmapSuccess c.sessionId c.now c.totalTranscripts g c.genNodes c.genEdges) := rfl
    have h2 : jsOrInt (updateMindmapSuccess c.sessionId c.now c.totalTranscripts g c.genNodes c.genEdges).metadata.version 0
        = jsOrInt g.metadata.version 0 + 1 := by
      rw [updateMindmapSuccess_version, jsOrInt_some_add_one]
    rw [h1, ih, h2]
    simp only [List.length_cons]
    push_cast
    ring

/-- C6: for every graph whose node count is at most `maxNodes`, the
summarization operation is the identity: nodes, edges and metadata are all
unchanged. -/
theorem c6_summarize_noop (now : Int) (g : Graph) (maxNodes : Nat)
    (h : g.nodes.length ≤ maxNodes) : summarizeOlderNodes now g maxNodes = g := by
  unfold summarizeOlderNodes
  rw [if_pos h]

theorem c6_summarize_noop_witness : summarizeOlderNodes 0 gOneNode 5 = gOneNode :=
  c6_summarize_noop 0 gOneNode 5 (by decide)

/-- C7: merging the empty delta preserves the nodes and edges exactly while
still incrementing `metadata.version` by 1 and stamping
`metadata.lastUpdated`; all other metadata fields are unchanged. -/
theorem c7_merge_empty_delta (now : Int) (rand : Nat → String) (g : Graph) :
    (mergeMindmapUpdates now rand g ⟨[], []⟩).nodes = g.nodes
    ∧ (mergeMindmapUpdates now rand g ⟨[], []⟩).edges = g.edges
    ∧ (mergeMindmapUpdates now rand g ⟨[], []⟩).metadata.version
        = some (jsOrInt g.metadata.version 0 + 1)
    ∧ (mergeMindmapUpdates now rand g ⟨[], []⟩).metadata.lastUpdated = some now
    ∧ (mergeMindmapUpdates now rand g ⟨[], []⟩).metadata.sessionId = g.metadata.sessionId
    ∧ (mergeMindmapUpdates now rand g ⟨[], []⟩).metadata.totalTranscripts = g.metadata.totalTranscripts
    ∧ (mergeMindmapUpdates now rand g ⟨[], []⟩).metadata.error = g.metadata.error :=
  ⟨rfl, rfl, rfl, rfl, rfl, rfl, rfl⟩

theorem updateMindmapFailure_of_ne_nil (sid : Option String) (now : Int) (msg : String)
    (g : Graph) (h : g.nodes ≠ []) : updateMindmapFailure sid now msg g = g := by
  unfold updateMindmapFailure
  rw [if_pos (List.length_pos.mpr h)]

theorem updateMindmapFailure_of_nil (sid : Option String) (now : Int) (msg : String)
    (g : Graph) (h : g.nodes = []) :
    updateMindmapFailure sid now msg g
      = { nodes := []
          edges := []
          metadata := { sessionId := sid, lastUpdated := some now, version := some 0,
                        totalTranscripts := some 0, error := some msg } } := by
  have hlen : ¬ g.nodes.length > 0 := by simp [h]
  unfold updateMindmapFailure
  rw [if_neg hlen]

/-- C3: a failed update cycle never destroys the in-memory graph: when the
current graph is non-empty (a prior graph exists) the catch handler leaves it
entirely unchanged, and the diagnostic `metadata.error` is attached only in
the no-prior-graph case (empty node list), where the handler installs an
empty graph carrying the error message. -/
theorem c3_failure_preserves_graph (sid : Option String) (now : Int) (msg : String) (g : Graph) :
    (g.nodes ≠ [] → updateMindmapFailure sid now msg g = g)
    ∧ (g.nodes = [] →
        (updateMindmapFailure sid now msg g).nodes = []
        ∧ (updateMindmapFailure sid now msg g).edges = []
        ∧ (updateMindmapFailure sid now msg g).metadata.error = some msg) := by
  constructor
  · exact updateMindmapFailure_of_ne_nil sid now msg g
  · intro h
    rw [updateMindmapFailure_of_nil sid now msg g h]
    exact ⟨rfl, rfl, rfl⟩

theorem c3_failure_preserves_graph_witness :
    updateMindmapFailure (some "s2") 0 "boom" gOneNode = gOneNode
    ∧ (updateMindmapFailure (some "s1") 21 "boom" gEmptyV1).metadata.error = some "boom" :=
  ⟨(c3_failure_preserves_graph (some "s2") 0 "boom" gOneNode).1 (by decide),
   ((c3_failure_preserves_graph (some "s1") 21 "boom" gEmptyV1).2 (by decide)).2.2⟩

/-- C2 (amended): `metadata.version` increases by exactly 1 on each successful
update cycle and on each merge invocation, and after N successful cycles from
version v it is exactly v + N; a failed cycle leaves the version unchanged
provided the current graph has at least one node.  (As stated — version never
decreases, failed cycles never change it — the claim fails when the current
graph has zero nodes: see the counterexample, where a failed cycle resets the
version to 0.) -/
theorem c2_version_monotone_amended :
    (∀ (now : Int) (rand : Nat → String) (g : Graph) (d : Delta),
       (mergeMindmapUpdates now rand g d).metadata.version
         = some (jsOrInt g.metadata.version 0 + 1))
    ∧ (∀ (sid : Option String) (now tot : Int) (g : Graph) (ns : List Node) (es : List Edge),
       (updateMindmapSuccess sid now tot g ns es).metadata.version
         = some (jsOrInt g.metadata.version 0 + 1))
    ∧ (∀ (inputs : List CycleInput) (g : Graph),
       jsOrInt (applyCycles inputs g).metadata.version 0
         = jsOrInt g.metadata.version 0 + inputs.length)
    ∧ (∀ (sid : Option String) (now : Int) (msg : String) (g : Graph),
       g.nodes ≠ [] → updateMindmapFailure sid now msg g = g) := by
  refine ⟨fun _ _ _ _ => rfl, fun _ _ _ _ _ _ => updateMindmapSuccess_version _ _ _ _ _ _, ?_, ?_⟩
  · intro inputs g
    exact applyCycles_version inputs g
  · intro sid now msg g h
    exact updateMindmapFailure_of_ne_nil sid now msg g h

theorem c2_version_monotone_amended_witness :
    updateMindmapFailure (some "w") 1 "gen failed" gOneNode = gOneNode :=
  c2_version_monotone_amended.2.2.2 (some "w") 1 "gen failed" gOneNode (by decide)

/-- C2 counterexample: a graph with zero nodes but version 1 (reachable: a
successful cycle whose generation result had zero nodes) has its version
reset to 0 by a failed cycle — the version decreases and a failed cycle does
not leave it unchanged. -/
theorem c2_version_reset_cex :
    gEmptyV1.metadata.version = some 1
    ∧ (updateMindmapFailure (some "s1") 21 "parse failed" gEmptyV1).metadata.version = some 0 := by
  exact ⟨rfl, rfl⟩

theorem head_of_dropWhile_not_brace :
    ∀ (cs : List Char) (c : Char) (rest : List Char),
      cs.dropWhile (fun a => decide (a ≠ '{')) = c :: rest → c = '{' := by
  intro cs
  induction cs with
  | nil => intro c rest h; exact absurd h (by simp)
  | cons a t ih =>
    intro c rest h
    rw [List.dropWhile_cons] at h
    by_cases ha : a = '{'
    · rw [if_neg (by simp [ha])] at h
      injection h with h1 _
      rw [← h1]
      exact ha
    · rw [if_pos (by simp [ha])] at h
      exact ih c rest h

theorem braceScanFrom_mem :
    ∀ (cs : List Char) (count : Int), 0 < count → braceScanFrom cs count = true → '}' ∈ cs := by
  intro cs
  induction cs with
  | nil => intro count _ h; exact absurd h (by simp [braceScanFrom])
  | cons c rest ih =>
    intro count hc h
    by_cases hbr : c = '}'
    · subst hbr
      exact List.mem_cons_self _ _
    · by_cases ho : c = '{'
      · subst ho
        have hne : count + 1 ≠ 0 := by omega
        rw [show braceScanFrom ('{' :: rest) count = braceScanFrom rest (count + 1) by
          simp [braceScanFrom, hne]] at h
        exact List.mem_cons_of_mem _ (ih (count + 1) (by omega) h)
      · have hne : count ≠ 0 := by omega
        rw [show braceScanFrom (c :: rest) count = braceScanFrom rest count by
          simp [braceScanFrom, ho, hbr, hne]] at h
        exact List.mem_cons_of_mem _ (ih count hc h)

theorem greedyBraceMatch_append (l1 l2 l3 : List Char) :
    greedyBraceMatch (l1 ++ '{' :: (l2 ++ '}' :: l3)) = true := by
  induction l1 with
  | nil =>
    unfold greedyBraceMatch
    rw [List.nil_append, List.dropWhile_cons, if_neg (by simp)]
    simp
  | cons a t ih =>
    by_cases ha : a = '{'
    · unfold greedyBraceMatch
      rw [List.cons_append, List.dropWhile_cons, if_neg (by simp [ha])]
      simp
    · unfold greedyBraceMatch at ih ⊢
      rw [List.cons_append, List.dropWhile_cons, if_pos (by simp [ha])]
      exact ih

/-- Justification that `greedyBraceMatch` embeds the success condition of the
greedy regexp: it holds exactly when some opening brace is followed, anywhere
later, by a closing brace. -/
theorem greedyBraceMatch_iff (cs : List Char) :
    greedyBraceMatch cs = true ↔ ∃ l1 l2 l3, cs = l1 ++ '{' :: (l2 ++ '}' :: l3) := by
  constructor
  · induction cs with
    | nil => intro h; exact absurd h (by decide)
    | cons a t ih =>
      intro h
      by_cases ha : a = '{'
      · subst ha
        have h' : decide ('}' ∈ t) = true := by
          unfold greedyBraceMatch at h
          rw [List.dropWhile_cons, if_neg (by simp)] at h
          exact h
        obtain ⟨s, t', ht⟩ := List.append_of_mem (of_decide_eq_true h')
        exact ⟨[], s, t', by rw [ht]; rfl⟩
      · have h' : greedyBraceMatch t = true := by
          unfold greedyBraceMatch at h ⊢
          rw [List.dropWhile_cons, if_pos (by simp [ha])] at h
          exact h
        obtain ⟨l1, l2, l3, ht⟩ := ih h'
        exact ⟨a :: l1, l2, l3, by rw [List.cons_append, ← ht]⟩
  · rintro ⟨l1, l2, l3, rfl⟩
    exact greedyBraceMatch_append l1 l2 l3

/-- C10: the brace-counting fallback of the JSON extraction never succeeds
where the greedy regexp match failed, so the two-stage extraction succeeds
exactly when the greedy match alone succeeds. -/
theorem c10_fallback_redundant (cs : List Char) :
    (fallbackBraceMatch cs = true → greedyBraceMatch cs = true)
    ∧ twoStageExtractSucceeds cs = greedyBraceMatch cs := by
  have himp : fallbackBraceMatch cs = true → greedyBraceMatch cs = true := by
    intro h
    unfold fallbackBraceMatch at h
    unfold greedyBraceMatch
    cases hd : cs.dropWhile (fun a => decide (a ≠ '{')) with
    | nil =>
      rw [hd] at h
      exact absurd h (by simp)
    | cons c rest =>
      have hc : c = '{' := head_of_dropWhile_not_brace cs c rest hd
      subst hc
      rw [hd] at h
      have h' : braceScanFrom ('{' :: rest) 0 = true := h
      have h1 : braceScanFrom rest 1 = true := by
        have e : braceScanFrom ('{' :: rest) 0 = braceScanFrom rest 1 := by
          simp [braceScanFrom]
        exact e ▸ h'
      have hmem : '}' ∈ rest := braceScanFrom_mem rest 1 (by norm_num) h1
      show decide ('}' ∈ rest) = true
      exact decide_eq_true hmem
  refine ⟨himp, ?_⟩
  unfold twoStageExtractSucceeds
  cases hg : greedyBraceMatch cs with
  | false =>
    have hf : fallbackBraceMatch cs = false := by
      cases hf : fallbackBraceMatch cs with
      | false => rfl
      | true => exact absurd (himp hf) (by simp [hg])
    rw [hf]
    rfl
  | true => rfl

theorem c10_fallback_redundant_witness :
    greedyBraceMatch ['{', 'a', '}'] = true :=
  (c10_fallback_redundant ['{', 'a', '}']).1 (by decide)

theorem length_filter_mem_comm (w1 w2 : List (List Char)) (h1 : w1.Nodup) (h2 : w2.Nodup) :
    (w1.filter (fun w => decide (w ∈ w2))).length = (w2.filter (fun w => decide (w ∈ w1))).length := by
  have key : ∀ (a b : List (List Char)), a.Nodup →
      (a.filter (fun w => decide (w ∈ b))).length = (a.toFinset ∩ b.toFinset).card := by
    intro a b ha
    have hnd : (a.filter (fun w => decide (w ∈ b))).Nodup := ha.filter _
    rw [← List.toFinset_card_of_nodup hnd, List.toFinset_filter]
    congr 1
    ext x
    simp
  rw [key w1 w2 h1, key w2 w1 h2, Finset.inter_comm]

/-- C5 (amended): the similarity heuristic is symmetric on all label pairs
whose whitespace token lists are duplicate-free; the exact-match and
containment branches are symmetric unconditionally, but the token-overlap
count uses the first label's multiplicities, so symmetry can fail on labels
with repeated tokens (see the counterexample). -/
theorem c5_similarity_symmetry_amended (a b : String)
    (ha : (labelTokens a).Nodup) (hb : (labelTokens b).Nodup) :
    nodesSimilar (some a) (some b) = nodesSimilar (some b) (some a) := by
  show (if a = "" ∨ b = "" then false
        else if normalizeChars a = normalizeChars b then true
        else if hasSubList (normalizeChars b) (normalizeChars a)
                || hasSubList (normalizeChars a) (normalizeChars b) then true
        else decide (2 * ((splitWsList (normalizeChars a)).filter
                (fun w => decide (w ∈ splitWsList (normalizeChars b)))).length
               > max (splitWsList (normalizeChars a)).length (splitWsList (normalizeChars b)).length))
      = (if b = "" ∨ a = "" then false
        else if normalizeChars b = normalizeChars a then true
        else if hasSubList (normalizeChars a) (normalizeChars b)
                || hasSubList (normalizeChars b) (normalizeChars a) then true
        else decide (2 * ((splitWsList (normalizeChars b)).filter
                (fun w => decide (w ∈ splitWsList (normalizeChars a)))).length
               > max (splitWsList (normalizeChars b)).length (splitWsList (normalizeChars a)).length))
  refine if_congr or_comm rfl ?_
  refine if_congr eq_comm rfl ?_
  refine if_congr (by rw [Bool.or_comm]) rfl ?_
  rw [decide_eq_decide,
    length_filter_mem_comm (splitWsList (normalizeChars a)) (splitWsList (normalizeChars b)) ha hb,
    Nat.max_comm]

theorem c5_similarity_symmetry_amended_witness :
    nodesSimilar (some "Budget") (some "Q4 Budget")
      = nodesSimilar (some "Q4 Budget") (some "Budget") :=
  c5_similarity_symmetry_amended "Budget" "Q4 Budget" (by decide) (by decide)

/-- C5 counterexample: the token-overlap count uses the first label's token
multiplicities, so similarity is not symmetric for all label pairs: for the
labels `x x` and `x y` the overlap is 2/2 one way and 1/2 the other. -/
theorem c5_similarity_asymmetric_cex :
    nodesSimilar (some "x x") (some "x y") = true
    ∧ nodesSimilar (some "x y") (some "x x") = false := by
  decide

theorem specInsertNode_eq_mergeNodeStep (now : Int) (rand : Nat → String) (k : Nat)
    (n : Node) : ∀ acc : List Node, specInsertNode now rand k acc n = mergeNodeStep now rand k acc n := by
  intro acc
  induction acc with
  | nil => simp [specInsertNode, mergeNodeStep]
  | cons e rest ih =>
    by_cases hsim : nodesSimilar e.label n.label
    · have hany : (e :: rest).any (fun m => nodesSimilar m.label n.label) = true := by
        simp [List.any_cons, hsim]
      cases hidx : n.metadata.bind NodeMeta.transcriptIndices with
      | some idxs => simp [specInsertNode, mergeNodeStep, hsim, hany, hidx, updateFirstSimilar]
      | none => simp [specInsertNode, mergeNodeStep, hsim, hany, hidx]
    · have hany : (e :: rest).any (fun m => nodesSimilar m.label n.label)
          = rest.any (fun m => nodesSimilar m.label n.label) := by
        simp [List.any_cons, hsim]
      by_cases hrest : rest.any (fun m => nodesSimilar m.label n.label)
      · cases hidx : n.metadata.bind NodeMeta.transcriptIndices with
        | some idxs =>
          have ih' := ih
          simp only [mergeNodeStep, hrest, hidx, if_pos, if_true] at ih'
          simp [specInsertNode, mergeNodeStep, hsim, hany, hrest, hidx, updateFirstSimilar, ih']
        | none =>
          have ih' := ih
          simp only [mergeNodeStep, hrest, hidx, if_pos, if_true] at ih'
          simp [specInsertNode, mergeNodeStep, hsim, hany, hrest, hidx, ih']
      · have ih' := ih
        simp only [mergeNodeStep, hrest, Bool.false_eq_true, if_false] at ih'
        simp [specInsertNode, mergeNodeStep, hsim, hany, hrest, ih']

theorem specInsertEdge_eq_mergeEdgeStep (now : Int) (rand : Nat → String) (k : Nat)
    (acc : List Edge) (e : Edge) :
    specInsertEdge now rand k acc e = mergeEdgeStep now rand k acc e := by
  unfold specInsertEdge mergeEdgeStep
  have h : decide (∃ e0 ∈ acc, e0.fromId = e.fromId ∧ e0.toId = e.toId)
      = acc.any (fun e0 => decide (e0.fromId = e.fromId ∧ e0.toId = e.toId)) := by
    rw [Bool.eq_iff_iff]
    simp [List.any_eq_true]
  rw [h]

theorem mergeSpecNodesLoop_eq (now : Int) (rand : Nat → String) :
    ∀ (ns : List Node) (k : Nat) (acc : List Node),
      mergeSpecNodesLoop now rand k acc ns = mergeNodesLoop now rand k acc ns := by
  intro ns
  induction ns with
  | nil => intro k acc; rfl
  | cons n rest ih =>
    intro k acc
    show mergeSpecNodesLoop now rand (k + 1) (specInsertNode now rand k acc n) rest
        = mergeNodesLoop now rand (k + 1) (mergeNodeStep now rand k acc n) rest
    rw [specInsertNode_eq_mergeNodeStep]
    exact ih (k + 1) _

theorem mergeSpecEdgesLoop_eq (now : Int) (rand : Nat → String) :
    ∀ (es : List Edge) (k : Nat) (acc : List Edge),
      mergeSpecEdgesLoop now rand k acc es = mergeEdgesLoop now rand k acc es := by
  intro es
  induction es with
  | nil => intro k acc; rfl
  | cons e rest ih =>
    intro k acc
    show mergeSpecEdgesLoop now rand (k + 1) (specInsertEdge now rand k acc e) rest
        = mergeEdgesLoop now rand (k + 1) (mergeEdgeStep now rand k acc e) rest
    rw [specInsertEdge_eq_mergeEdgeStep]
    exact ih (k + 1) _

/-- C4: the source merge equals the spec-described algorithm — each incoming
node is merged into the first similar existing node (unioning transcript
indices, duplicates tolerated, identity and visuals kept) and appended with a
generated id only when no existing node is similar; each incoming edge is
appended only when no existing edge has the identical direction-sensitive,
type-insensitive `(from, to)` pair.  In particular, merging a delta node
labelled `Q4 Budget` into a graph containing `Budget` yields 1 node with the
unioned transcript indices, not 2 nodes. -/
theorem c4_merge_algorithm :
    (∀ (now : Int) (rand : Nat → String) (g : Graph) (d : Delta),
       mergeMindmapUpdates now rand g d = mergeMindmapSpec now rand g d)
    ∧ (mergeMindmapUpdates 0 (fun _ => "r") gBudget dQ4Budget).nodes.length = 1
    ∧ (mergeMindmapUpdates 0 (fun _ => "r") gBudget dQ4Budget).nodes.map Node.id = [some "n1"]
    ∧ (mergeMindmapUpdates 0 (fun _ => "r") gBudget dQ4Budget).nodes.map
        (fun n => (n.metadata.bind NodeMeta.transcriptIndices).getD []) = [[1, 2]] := by
  refine ⟨?_, by decide, by decide, by decide⟩
  intro now rand g d
  unfold mergeMindmapUpdates mergeMindmapSpec
  rw [mergeSpecNodesLoop_eq, mergeSpecEdgesLoop_eq]

theorem mem_sortByFirstMentioned {n : Node} {l : List Node} :
    n ∈ sortByFirstMentioned l ↔ n ∈ l :=
  (List.mergeSort_perm l _).mem_iff

theorem mem_levelKeys {lv : Int} {l : List Node} :
    lv ∈ levelKeys l ↔ ∃ n ∈ l, jsLevel n = lv := by
  unfold levelKeys
  rw [(List.mergeSort_perm _ _).mem_iff, List.mem_dedup, List.mem_map]

theorem isOldId_iff {older : List Node} {x : String} :
    isOldId older x = true ↔ ∃ n ∈ older, n.id = some x := by
  unfold isOldId
  rw [List.any_eq_true]
  simp

theorem summarizedIncl_mkSummaryNode {now : Int} {older : List Node} {lv : Int} {x : String}
    (h : ∃ n ∈ groupAtLevel older lv, n.id = some x) :
    summarizedIncl (mkSummaryNode now older lv) x = true := by
  obtain ⟨n, hn, hid⟩ := h
  show decide (some x ∈ (groupAtLevel older lv).map Node.id) = true
  exact decide_eq_true (List.mem_map.mpr ⟨n, hn, hid⟩)

theorem mem_createSummaryNodes_id {now : Int} {older : List Node} {s : Node}
    (h : s ∈ createSummaryNodes now older) : ∃ str, s.id = some str := by
  unfold createSummaryNodes at h
  obtain ⟨lv, _, hlv⟩ := List.mem_filterMap.mp h
  by_cases hg : groupAtLevel older lv = []
  · rw [if_pos hg] at hlv
    exact absurd hlv (by simp)
  · rw [if_neg hg] at hlv
    injection hlv with hs
    rw [← hs]
    exact ⟨_, rfl⟩

theorem exists_summary_for_old (now : Int) {older : List Node} {x : String}
    (h : isOldId older x = true) :
    ∃ s ∈ createSummaryNodes now older, summarizedIncl s x = true := by
  obtain ⟨n, hn, hid⟩ := isOldId_iff.mp h
  have hmemgrp : n ∈ groupAtLevel older (jsLevel n) := by
    unfold groupAtLevel
    exact List.mem_filter.mpr ⟨hn, by simp⟩
  refine ⟨mkSummaryNode now older (jsLevel n), ?_, ?_⟩
  · unfold createSummaryNodes
    apply List.mem_filterMap.mpr
    refine ⟨jsLevel n, mem_levelKeys.mpr ⟨n, hn, rfl⟩, ?_⟩
    rw [if_neg (List.ne_nil_of_mem hmemgrp)]
  · exact summarizedIncl_mkSummaryNode ⟨n, hmemgrp, hid⟩

theorem not_old_endpoint_in_recent {l : List Node} (maxN : Nat) {x : String}
    (hnotold : ¬ isOldId (olderNodesOf l maxN) x = true)
    (hhas : ∃ n ∈ l, n.id = some x) :
    ∃ n ∈ recentNodesOf l maxN, n.id = some x := by
  obtain ⟨n, hn, hid⟩ := hhas
  have hn' : n ∈ sortByFirstMentioned l := mem_sortByFirstMentioned.mpr hn
  rw [← List.take_append_drop ((sortByFirstMentioned l).length - maxN) (sortByFirstMentioned l)] at hn'
  rcases List.mem_append.mp hn' with h1 | h2
  · exact absurd (isOldId_iff.mpr ⟨n, h1, hid⟩) hnotold
  · exact ⟨n, h2, hid⟩

theorem summarize_no_dangling (now : Int) (g : Graph) (maxN : Nat) (hg : NoDangling g) :
    NoDangling (summarizeOlderNodes now g maxN) := by
  unfold summarizeOlderNodes
  split
  · exact hg
  · unfold NoDangling updateEdgesForSummaries
    intro e' he'
    obtain ⟨e, heg, hre⟩ := List.mem_filterMap.mp he'
    obtain ⟨hfrom, hto⟩ := hg e heg
    unfold edgeRewrite at hre
    cases hfb : isOldId (olderNodesOf g.nodes maxN) e.fromId with
    | true =>
      cases htb : isOldId (olderNodesOf g.nodes maxN) e.toId with
      | true =>
        rw [hfb, htb] at hre
        exact absurd hre (by simp)
      | false =>
        rw [hfb, htb] at hre
        simp only [Bool.and_false, Bool.false_eq_true, if_false, if_true] at hre
        obtain ⟨s0, hs0S, hs0p⟩ := exists_summary_for_old now hfb
        have hfindsome : ((createSummaryNodes now (olderNodesOf g.nodes maxN)).find?
            (fun s => summarizedIncl s e.fromId)).isSome = true :=
          List.find?_isSome.mpr ⟨s0, hs0S, hs0p⟩
        obtain ⟨s, hfind⟩ := Option.isSome_iff_exists.mp hfindsome
        rw [hfind] at hre
        injection hre with hre
        subst hre
        have hsS : s ∈ createSummaryNodes now (olderNodesOf g.nodes maxN) :=
          List.mem_of_find?_eq_some hfind
        obtain ⟨str, hsid⟩ := mem_createSummaryNodes_id hsS
        constructor
        · exact ⟨s, List.mem_append_right _ hsS, by simp [hsid]⟩
        · obtain ⟨n, hn, hid⟩ := not_old_endpoint_in_recent maxN (by simp [htb]) hto
          exact ⟨n, List.mem_append_left _ hn, hid⟩
    | false =>
      cases htb : isOldId (olderNodesOf g.nodes maxN) e.toId with
      | true =>
        rw [hfb, htb] at hre
        simp only [Bool.false_and, Bool.false_eq_true, if_false, if_true] at hre
        obtain ⟨s0, hs0S, hs0p⟩ := exists_summary_for_old now htb
        have hfindsome : ((createSummaryNodes now (olderNodesOf g.nodes maxN)).find?
            (fun s => summarizedIncl s e.toId)).isSome = true :=
          List.find?_isSome.mpr ⟨s0, hs0S, hs0p⟩
        obtain ⟨s, hfind⟩ := Option.isSome_iff_exists.mp hfindsome
        rw [hfind] at hre
        injection hre with hre
        subst hre
        have hsS : s ∈ createSummaryNodes now (olderNodesOf g.nodes maxN) :=
          List.mem_of_find?_eq_some hfind
        obtain ⟨str, hsid⟩ := mem_createSummaryNodes_id hsS
        constructor
        · obtain ⟨n, hn, hid⟩ := not_old_endpoint_in_recent maxN (by simp [hfb]) hfrom
          exact ⟨n, List.mem_append_left _ hn, hid⟩
        · exact ⟨s, List.mem_append_right _ hsS, by simp [hsid]⟩
      | false =>
        rw [hfb, htb] at hre
        simp only [Bool.false_and, Bool.false_eq_true, if_false] at hre
        injection hre with hre
        subst hre
        constructor
        · obtain ⟨n, hn, hid⟩ := not_old_endpoint_in_recent maxN (by simp [hfb]) hfrom
          exact ⟨n, List.mem_append_left _ hn, hid⟩
        · obtain ⟨n, hn, hid⟩ := not_old_endpoint_in_recent maxN (by simp [htb]) hto
          exact ⟨n, List.mem_append_left _ hn, hid⟩

theorem hasNodeId_iff_mem_map {l : List Node} {x : String} :
    hasNodeId l x ↔ some x ∈ l.map Node.id :=
  (List.mem_map).symm

theorem unionTranscriptIndices_id (n : Node) (idxs : List Int) :
    (unionTranscriptIndices n idxs).id = n.id := rfl

theorem updateFirstSimilar_map_id (lbl : Option String) (idxs : List Int) :
    ∀ l : List Node, (updateFirstSimilar lbl idxs l).map Node.id = l.map Node.id := by
  intro l
  induction l with
  | nil => rfl
  | cons n rest ih =>
    unfold updateFirstSimilar
    by_cases h : nodesSimilar n.label lbl
    · simp [h, unionTranscriptIndices_id]
    · simp [h, ih]

theorem hasNodeId_mergeNodeStep {now : Int} {rand : Nat → String} {k : Nat}
    {acc : List Node} {n : Node} {x : String}
    (h : hasNodeId acc x) : hasNodeId (mergeNodeStep now rand k acc n) x := by
  unfold mergeNodeStep
  by_cases hany : acc.any (fun m => nodesSimilar m.label n.label)
  · rw [if_pos hany]
    cases hidx : n.metadata.bind NodeMeta.transcriptIndices with
    | some idxs =>
      apply hasNodeId_iff_mem_map.mpr
      rw [updateFirstSimilar_map_id]
      exact hasNodeId_iff_mem_map.mp h
    | none => exact h
  · rw [if_neg hany]
    obtain ⟨m, hm, hid⟩ := h
    exact ⟨m, List.mem_append_left _ hm, hid⟩

theorem hasNodeId_mergeNodesLoop (now : Int) (rand : Nat → String) :
    ∀ (ns : List Node) (k : Nat) (acc : List Node) (x : String),
      hasNodeId acc x → hasNodeId (mergeNodesLoop now rand k acc ns) x := by
  intro ns
  induction ns with
  | nil => intro k acc x h; exact h
  | cons n rest ih => intro k acc x h; exact ih (k + 1) _ x (hasNodeId_mergeNodeStep h)

theorem mergeEdgesLoop_endpoints (now : Int) (rand : Nat → String) (P : String → Prop) :
    ∀ (es : List Edge) (k : Nat) (acc : List Edge),
      (∀ e ∈ acc, P e.fromId ∧ P e.toId) → (∀ e ∈ es, P e.fromId ∧ P e.toId) →
      ∀ e' ∈ mergeEdgesLoop now rand k acc es, P e'.fromId ∧ P e'.toId := by
  intro es
  induction es with
  | nil => intro k acc hacc _ e' he'; exact hacc e' he'
  | cons e rest ih =>
    intro k acc hacc hes e' he'
    refine ih (k + 1) _ ?_ (fun x hx => hes x (List.mem_cons_of_mem _ hx)) e' he'
    intro e0 he0
    unfold mergeEdgeStep at he0
    by_cases hany : acc.any (fun e1 => decide (e1.fromId = e.fromId ∧ e1.toId = e.toId))
    · rw [if_pos hany] at he0
      exact hacc e0 he0
    · rw [if_neg hany] at he0
      rcases List.mem_append.mp he0 with h1 | h2
      · exact hacc e0 h1
      · have heq : e0 = { e with id := some (jsOrStr e.id (freshEdgeId now rand k)) } :=
          List.mem_singleton.mp h2
        subst heq
        exact hes e (List.mem_cons_self _ _)

/-- C1 (amended): summarization preserves the no-dangling-edges invariant (a
collapsed endpoint always resolves to the summary node that lists it, and
edges between two collapsed nodes are dropped).  The merge operation preserves
the invariant only under the additional hypothesis that every delta edge's
endpoints reference node ids present in the existing graph: the source appends
delta edges without endpoint validation, so a delta edge referencing a delta
node that was fuzzy-merged away is left dangling (see the counterexample). -/
theorem c1_no_dangling_amended :
    (∀ (now : Int) (g : Graph) (maxNodes : Nat), NoDangling g → UniqueIds g →
       NoDangling (summarizeOlderNodes now g maxNodes))
    ∧ (∀ (now : Int) (rand : Nat → String) (g : Graph) (d : Delta),
       NoDangling g → UniqueIds g →
       (∀ e ∈ d.edges, hasNodeId g.nodes e.fromId ∧ hasNodeId g.nodes e.toId) →
       NoDangling (mergeMindmapUpdates now rand g d)) := by
  constructor
  · intro now g maxN hg _
    exact summarize_no_dangling now g maxN hg
  · intro now rand g d hg _ hd
    intro e' he'
    refine mergeEdgesLoop_endpoints now rand
      (fun x => hasNodeId (mergeMindmapUpdates now rand g d).nodes x) d.edges 0 g.edges ?_ ?_ e' he'
    · intro e he
      obtain ⟨h1, h2⟩ := hg e he
      exact ⟨hasNodeId_mergeNodesLoop now rand d.nodes 0 g.nodes _ h1,
             hasNodeId_mergeNodesLoop now rand d.nodes 0 g.nodes _ h2⟩
    · intro e he
      obtain ⟨h1, h2⟩ := hd e he
      exact ⟨hasNodeId_mergeNodesLoop now rand d.nodes 0 g.nodes _ h1,
             hasNodeId_mergeNodesLoop now rand d.nodes 0 g.nodes _ h2⟩

theorem c1_no_dangling_amended_witness :
    NoDangling (summarizeOlderNodes 7 gOneNode 0)
    ∧ NoDangling (mergeMindmapUpdates 7 (fun _ => "w") gOneNode ⟨[], []⟩) :=
  ⟨c1_no_dangling_amended.1 7 gOneNode 0 (by decide) (by decide),
   c1_no_dangling_amended.2 7 (fun _ => "w") gOneNode ⟨[], []⟩ (by decide) (by decide)
     (by intro e he; exact absurd he (List.not_mem_nil e))⟩

/-- C1 counterexample: the input graph `gBudget` satisfies the claim's
hypotheses (no dangling edges, unique node ids), yet merging a delta whose
edge references the delta node id `n2` — whose node is fuzzy-merged into the
existing `Budget` node and therefore never added — yields a graph whose edge
still points at the absent id `n2`: a dangling edge. -/
theorem c1_merge_dangling_cex :
    NoDangling gBudget ∧ UniqueIds gBudget
    ∧ ¬ NoDangling (mergeMindmapUpdates 0 (fun _ => "r") gBudget dQ4BudgetWithEdge) := by
  decide

theorem jsOrStr_some_empty_default (s : String) : jsOrStr (some s) "" = s := by
  show (if s = "" then "" else s) = s
  split
  · rename_i h; exact h.symm
  · rfl

theorem jsOrStr_some_ne (s d : String) (h : s ≠ "") : jsOrStr (some s) d = s := by
  show (if s = "" then d else s) = s
  rw [if_neg h]

theorem jsOrInt_some_ne (v d : Int) (h : v ≠ 0) : jsOrInt (some v) d = v := by
  show (if v = 0 then d else v) = v
  rw [if_neg h]

/-- C8 (amended): the save operation is read-modify-write and writes the graph
as a serialized string in both cases; with an existing record the four text
fields are written back verbatim whenever present (an absent field becomes the
empty string, observationally the same for string values), while `model` is
preserved only when present and non-empty (else `unknown`) and `generated_at`
only when present and non-zero (else the current time); with no existing
record a full record with defaults is synthesized.  (As stated — all other
fields verbatim — the claim fails on records with falsy `model` or
`generated_at` fields: see the counterexample.) -/
theorem c8_save_rmw_amended (stringify : Graph → String) (now : Int) (sid : String)
    (g : Graph) (r : SummaryRecord) :
    (saveMindmap stringify now sid g (some r)).mindmap_json = stringify g
    ∧ (saveMindmap stringify now sid g none).mindmap_json = stringify g
    ∧ (∀ s, r.text = some s → (saveMindmap stringify now sid g (some r)).text = s)
    ∧ (∀ s, r.tldr = some s → (saveMindmap stringify now sid g (some r)).tldr = s)
    ∧ (∀ s, r.bullet_json = some s → (saveMindmap stringify now sid g (some r)).bullet_json = s)
    ∧ (∀ s, r.action_json = some s → (saveMindmap stringify now sid g (some r)).action_json = s)
    ∧ (∀ s, r.model = some s → s ≠ "" → (saveMindmap stringify now sid g (some r)).model = s)
    ∧ (r.model = none ∨ r.model = some "" → (saveMindmap stringify now sid g (some r)).model = "unknown")
    ∧ (∀ v, r.generated_at = some v → v ≠ 0 → (saveMindmap stringify now sid g (some r)).generated_at = v)
    ∧ (r.generated_at = none ∨ r.generated_at = some 0 →
        (saveMindmap stringify now sid g (some r)).generated_at = now)
    ∧ (saveMindmap stringify now sid g none).text = ""
    ∧ (saveMindmap stringify now sid g none).model = "unknown"
    ∧ (saveMindmap stringify now sid g none).generated_at = now := by
  refine ⟨rfl, rfl, ?_, ?_, ?_, ?_, ?_, ?_, ?_, ?_, rfl, rfl, rfl⟩
  · intro s h
    show jsOrStr r.text "" = s
    rw [h, jsOrStr_some_empty_default]
  · intro s h
    show jsOrStr r.tldr "" = s
    rw [h, jsOrStr_some_empty_default]
  · intro s h
    show jsOrStr r.bullet_json "" = s
    rw [h, jsOrStr_some_empty_default]
  · intro s h
    show jsOrStr r.action_json "" = s
    rw [h, jsOrStr_some_empty_default]
  · intro s h hne
    show jsOrStr r.model "unknown" = s
    rw [h, jsOrStr_some_ne s _ hne]
  · intro h
    show jsOrStr r.model "unknown" = "unknown"
    rcases h with h | h <;> rw [h] <;> rfl
  · intro v h hne
    show jsOrInt r.generated_at now = v
    rw [h, jsOrInt_some_ne v _ hne]
  · intro h
    show jsOrInt r.generated_at now = now
    rcases h with h | h <;> rw [h] <;> rfl

theorem c8_save_rmw_amended_witness :
    (saveMindmap (fun _ => "JSON") 99 "sid" gOneNode (some rFull)).text = "Existing summary"
    ∧ (saveMindmap (fun _ => "JSON") 99 "sid" gOneNode (some rFull)).model = "gpt-4"
    ∧ (saveMindmap (fun _ => "JSON") 99 "sid" gOneNode (some rFull)).generated_at = 1234567890 :=
  ⟨(c8_save_rmw_amended (fun _ => "JSON") 99 "sid" gOneNode rFull).2.2.1 "Existing summary" rfl,
   (c8_save_rmw_amended (fun _ => "JSON") 99 "sid" gOneNode rFull).2.2.2.2.2.2.1 "gpt-4" rfl
     (by decide),
   (c8_save_rmw_amended (fun _ => "JSON") 99 "sid" gOneNode rFull).2.2.2.2.2.2.2.2.1 1234567890 rfl
     (by decide)⟩

/-- C8 counterexample: an existing record whose `model` is the empty string
and whose `generated_at` is 0 is not written back verbatim — the save
operation substitutes `unknown` and the current time. -/
theorem c8_save_model_default_cex :
    rFalsyFields.model = some ""
    ∧ rFalsyFields.generated_at = some 0
    ∧ (saveMindmap (fun _ => "J") 99 "sid" gOneNode (some rFalsyFields)).model = "unknown"
    ∧ (saveMindmap (fun _ => "J") 99 "sid" gOneNode (some rFalsyFields)).generated_at = 99
    ∧ ("unknown" : String) ≠ "" := by
  refine ⟨rfl, rfl, rfl, rfl, by decide⟩

theorem strAppend_assoc (a b c : String) : a ++ b ++ c = a ++ (b ++ c) := by
  apply String.ext
  simp [String.data_append, List.append_assoc]

theorem bracket_merge (m r : String) :
    "[" ++ ("[" ++ m ++ "]") ++ "] " ++ r = "[[" ++ m ++ "]] " ++ r := by
  apply String.ext
  simp [String.data_append, List.append_assoc]

/-- C9 (amended): a turn is formatted as `[local-time] speaker: text` when
`start_at` is present, non-zero, and valid as epoch-seconds (tried first) or
epoch-milliseconds; when `start_at` is absent, zero (JavaScript-falsy, despite
being a parsable epoch) or invalid under both readings, the index form
`[index]` fills the bracketed timestamp slot, so the line's prefix is the
double-bracketed `[[index]]` rather than `[index]` (see the counterexample). -/
theorem c9_format_turn_amended (render : Int → String) (index : Nat) (t : TranscriptTurn) :
    (∀ s, t.start_at = some s → s ≠ 0 → validDateMs (s * 1000) = true →
       formatTurn render index t
         = "[" ++ render (s * 1000) ++ "] " ++ jsOrStr t.speaker "unknown" ++ ": " ++ jsOrStr t.text "")
    ∧ (∀ s, t.start_at = some s → s ≠ 0 → validDateMs (s * 1000) = false → validDateMs s = true →
       formatTurn render index t
         = "[" ++ render s ++ "] " ++ jsOrStr t.speaker "unknown" ++ ": " ++ jsOrStr t.text "")
    ∧ ((t.start_at = none ∨ t.start_at = some 0
        ∨ (∃ s, t.start_at = some s ∧ validDateMs (s * 1000) = false ∧ validDateMs s = false)) →
       formatTurn render index t
         = "[[" ++ toString index ++ "]] " ++ jsOrStr t.speaker "unknown" ++ ": " ++ jsOrStr t.text "") := by
  refine ⟨?_, ?_, ?_⟩
  · intro s hs hne hval
    unfold formatTurn
    rw [hs]
    simp only [hne, ne_eq, not_false_iff, if_true, hval, if_pos]
  · intro s hs hne hval hvalms
    unfold formatTurn
    rw [hs]
    simp only [hne, ne_eq, not_false_iff, if_true, hval, hvalms,
      Bool.false_eq_true, if_false, if_pos]
  · intro h
    rcases h with h | h | ⟨s, hs, h1, h2⟩
    · unfold formatTurn
      rw [h, ← bracket_merge]
    · unfold formatTurn
      rw [h, ← bracket_merge]
      simp
    · unfold formatTurn
      rw [hs, ← bracket_merge]
      simp [h1, h2]

theorem c9_format_turn_amended_witness :
    formatTurn (fun _ => "T") 0 tSec = "[T] them: hi"
    ∧ formatTurn (fun _ => "T") 3 tMissing = "[[3]] them: hi" := by
  constructor
  · have h := (c9_format_turn_amended (fun _ => "T") 0 tSec).1 1000 rfl (by decide) (by decide)
    rw [h]
    rfl
  · have h := (c9_format_turn_amended (fun _ => "T") 3 tMissing).2.2 (Or.inl rfl)
    rw [h]
    rfl

/-- C9 counterexample: for a turn with no timestamp the line's prefix is the
double-bracketed `[[0]]`, not the claimed `[0]`; and a turn whose `start_at`
is the parsable epoch 0 also falls back to the index form because 0 is
JavaScript-falsy. -/
theorem c9_format_fallback_cex :
    formatTurn (fun _ => "LT") 0 tMissing = "[[0]] them: hi"
    ∧ formatTurn (fun _ => "LT") 0 tMissing ≠ "[0] them: hi"
    ∧ formatTurn (fun _ => "LT") 1 tZero = "[[1]] them: hi" := by
  refine ⟨by decide, by decide, by decide⟩

end Glass
